import Mathlib

/-!
# Verification of the tinyserve staged apply-and-promote engine

A shallow embedding of the tinyserve daemon's core data model and
operations, translated from the Go sources:

* `internal/state`   — the `State` document, `InMemoryStore`, `FileStore`,
  `SQLiteStore` (schema and `Save`/`Load`).
* `internal/validate` — the pure field validators.
* `internal/generate` — hostname collection and the cloudflared ingress list.
* `internal/api`     — `handleAddService`, `handleDeploy`, `promote`,
  `pruneBackups`, `rollbackFromBackup`.
* `internal/docker`  — `Runner.WaitHealthy`.

Go machine integers are modelled as `Int` (none of the verified paths
overflow), timestamps as `Nat` (nanoseconds since the epoch), Go maps as
association lists, and the external collaborators (docker, compose,
Cloudflare) as explicit environment records holding the results of their
calls.  Go's `strings.ToLower`/`strings.EqualFold` are modelled on ASCII,
which is exact on every string the validators admit.
-/

namespace Tinyserve

/-- ASCII lower-casing of one character (models Go `strings.ToLower` per rune
for ASCII input). -/
def lowerChar (c : Char) : Char :=
  if 'A' ≤ c ∧ c ≤ 'Z' then Char.ofNat (c.toNat + 32) else c

/-- ASCII lower-casing of a string (Go `strings.ToLower` on ASCII input). -/
def lowerAscii (s : String) : String :=
  ⟨s.data.map lowerChar⟩

/-- Go `strings.EqualFold` restricted to ASCII: equality after lower-casing. -/
def eqFold (a b : String) : Bool :=
  lowerAscii a == lowerAscii b

/-- ASCII white-space predicate used by the `trimSpace` model. -/
def isSpaceChar (c : Char) : Bool :=
  c == ' ' || c == '\t' || c == '\n' || c == '\r'

/-- Go `strings.TrimSpace` on ASCII input. -/
def trimSpace (s : String) : String :=
  ⟨((s.data.dropWhile isSpaceChar).reverse.dropWhile isSpaceChar).reverse⟩

/-- Go `strings.ReplaceAll(name, " ", "-")`: both pattern and replacement are
single characters, so it is a character map. -/
def replaceSpaceDash (s : String) : String :=
  ⟨s.data.map (fun c => if c == ' ' then '-' else c)⟩

/-- `sanitizeName` from `internal/api/api.go`: lower-case, trim, spaces to
dashes. -/
def sanitizeName (name : String) : String :=
  replaceSpaceDash (lowerAscii (trimSpace name))

/-- Whether the character list `l` starts with the pattern `pat`. -/
def startsWithList : List Char → List Char → Bool
  | _, [] => true
  | [], _ :: _ => false
  | a :: as, b :: bs => a == b && startsWithList as bs

/-- Whether the pattern `pat` occurs as a contiguous run in `l`
(Go `strings.Contains` on the underlying characters). -/
def containsList (pat : List Char) : List Char → Bool
  | [] => pat.isEmpty
  | a :: rest => startsWithList (a :: rest) pat || containsList pat rest

/-- Go `strings.Contains(s, pat)`. -/
def strContains (s pat : String) : Bool :=
  containsList pat.data s.data

/-- Go `strings.HasPrefix(s, pat)`. -/
def strStartsWith (s pat : String) : Bool :=
  startsWithList s.data pat.data

/-- Go `strings.HasSuffix(s, pat)`. -/
def strEndsWith (s pat : String) : Bool :=
  startsWithList s.data.reverse pat.data.reverse

def isAlphaChar (c : Char) : Bool :=
  ('a' ≤ c && c ≤ 'z') || ('A' ≤ c && c ≤ 'Z')

def isDigitChar (c : Char) : Bool :=
  '0' ≤ c && c ≤ '9'

def isAlnumChar (c : Char) : Bool :=
  isAlphaChar c || isDigitChar c

def isHexChar (c : Char) : Bool :=
  isDigitChar c || ('a' ≤ c && c ≤ 'f') || ('A' ≤ c && c ≤ 'F')

/-! ## Validators (`internal/validate/validate.go`)

Each Go validator returns `nil` or an error; here they return `Bool`
(`true` = accepted).  The regular expressions are unfolded into character
scans; all of them are anchored and unambiguous (none of the character
classes contains the delimiter that follows it). -/

/-- `containsYAMLInjection` from `internal/validate/validate.go`. -/
def containsYAMLInjection (s : String) : Bool :=
  strContains s "\n" || strContains s "\r" ||
  strStartsWith (trimSpace s) "---" || strStartsWith (trimSpace s) "..." ||
  strContains s "\x00"

/-- One DNS label of `hostnameRegex`:
`[a-zA-Z0-9]([a-zA-Z0-9-]{0,61}[a-zA-Z0-9])?`. -/
def labelOK (l : List Char) : Bool :=
  match l with
  | [] => false
  | c :: rest =>
    isAlnumChar c && l.length ≤ 63 &&
      (match rest.reverse with
       | [] => true
       | lastc :: mid => isAlnumChar lastc && mid.all (fun d => isAlnumChar d || d == '-'))

/-- `validate.Hostname`: non-empty, at most 253 characters, and every
dot-separated label matches `labelOK`. -/
def hostnameOK (s : String) : Bool :=
  s ≠ "" && s.data.length ≤ 253 && (s.data.splitOn '.').all labelOK

/-- `validate.ServiceName`: `^[a-zA-Z][a-zA-Z0-9_-]*$`, length ≤ 64. -/
def serviceNameOK (s : String) : Bool :=
  match s.data with
  | [] => false
  | c :: rest =>
    s.data.length ≤ 64 && isAlphaChar c &&
      rest.all (fun d => isAlnumChar d || d == '_' || d == '-')

/-- `validate.EnvKey`: `^[a-zA-Z_][a-zA-Z0-9_]*$`, length ≤ 256. -/
def envKeyOK (s : String) : Bool :=
  match s.data with
  | [] => false
  | c :: rest =>
    s.data.length ≤ 256 && (isAlphaChar c || c == '_') &&
      rest.all (fun d => isAlnumChar d || d == '_')

/-- `validate.EnvValue`: length ≤ 32768, no null byte. -/
def envValueOK (s : String) : Bool :=
  s.data.length ≤ 32768 && !(strContains s "\x00")

/-- Split at the first occurrence of `sep`, returning the parts before and
after it, or `none` when `sep` does not occur. -/
def splitFirst (sep : Char) : List Char → Option (List Char × List Char)
  | [] => none
  | c :: rest =>
    if c == sep then some ([], rest)
    else match splitFirst sep rest with
      | none => none
      | some (a, b) => some (c :: a, b)

/-- The name part of `imageNameRegex`: one alphanumeric character followed by
alphanumerics, dot, underscore, slash or dash. -/
def imageMainOK : List Char → Bool
  | [] => false
  | c :: rest =>
    isAlnumChar c &&
      rest.all (fun d => isAlnumChar d || d == '.' || d == '_' || d == '/' || d == '-')

/-- `[a-zA-Z0-9._-]+` — the tag part of `imageNameRegex`. -/
def imageTagOK (l : List Char) : Bool :=
  !l.isEmpty && l.all (fun d => isAlnumChar d || d == '.' || d == '_' || d == '-')

/-- `sha256:[a-fA-F0-9]{64}` — the digest part of `imageNameRegex` (after
the `@`). -/
def imageDigestOK (l : List Char) : Bool :=
  startsWithList l "sha256:".data &&
    (l.drop 7).length == 64 && (l.drop 7).all isHexChar

/-- Name plus optional `:tag` (the classes contain no `:`, so the split at
the first `:` is exact). -/
def imageMainTagOK (l : List Char) : Bool :=
  match splitFirst ':' l with
  | some (a, t) => imageMainOK a && imageTagOK t
  | none => imageMainOK l

/-- `imageNameRegex` in full (the split at the first `@` is exact because no
class before the digest contains `@`). -/
def imageRegexOK (l : List Char) : Bool :=
  match splitFirst '@' l with
  | some (m, d) => imageMainTagOK m && imageDigestOK d
  | none => imageMainTagOK l

/-- `validate.ImageName`. -/
def imageNameOK (s : String) : Bool :=
  s ≠ "" && s.data.length ≤ 256 && imageRegexOK s.data && !containsYAMLInjection s

/-- The dangerous host paths of `validate.VolumePath`. -/
def dangerousHostPaths : List String :=
  ["/etc/passwd", "/etc/shadow", "/etc/sudoers", "/root/.ssh", "/var/run/docker.sock"]

/-- `volumePathRegex`: `^[^:]+:[^:]+(?::(ro|rw))?$`. -/
def volumeRegexOK (l : List Char) : Bool :=
  match l.splitOn ':' with
  | [a, b] => !a.isEmpty && !b.isEmpty
  | [a, b, m] => !a.isEmpty && !b.isEmpty && (m == "ro".data || m == "rw".data)
  | _ => false

/-- The host path of a volume spec: everything before the first `:`. -/
def volumeHostPath (s : String) : String :=
  match splitFirst ':' s.data with
  | some (a, _) => ⟨a⟩
  | none => s

/-- `validate.VolumePath`. -/
def volumePathOK (s : String) : Bool :=
  s ≠ "" && s.data.length ≤ 4096 && volumeRegexOK s.data &&
  !containsYAMLInjection s &&
  (dangerousHostPaths.all fun d =>
    !(strStartsWith (volumeHostPath s) d) && volumeHostPath s ≠ d) &&
  !(strStartsWith (volumeHostPath s) "/etc/") &&
  !(strStartsWith (volumeHostPath s) "/var/run/") &&
  !(strStartsWith (volumeHostPath s) "/root/") &&
  volumeHostPath s ≠ "/etc" && volumeHostPath s ≠ "/var/run" &&
  volumeHostPath s ≠ "/root"

/-- `validate.HealthcheckCommand`. -/
def healthcheckCommandOK (cmd : List String) : Bool :=
  cmd.isEmpty ||
    (cmd.length ≤ 100 &&
      cmd.all fun arg => arg.data.length ≤ 4096 && !(strContains arg "\x00"))

/-- `validate.Port`: `1 ≤ port ≤ 65535`. -/
def portOK (p : Int) : Bool :=
  1 ≤ p && p ≤ 65535

/-! ## Data model (`internal/state/state.go`) -/

structure TunnelSettings where
  mode : String
  token : String
  credentialsFile : String
  tunnelID : String
  tunnelName : String
  accountID : String
  deriving DecidableEq, Repr

structure BrowserAuthSettings where
  authType : String
  teamDomain : String
  policyAUD : String
  deriving DecidableEq, Repr

structure RemoteSettings where
  enabled : Bool
  hostname : String
  uiHostname : String
  apiHostname : String
  browserAuth : BrowserAuthSettings
  deriving DecidableEq, Repr

structure GlobalSettings where
  composeProjectName : String
  defaultDomain : String
  tunnel : TunnelSettings
  uiLocalPort : Int
  maxBackups : Int
  remote : RemoteSettings
  cloudflareAPIToken : String
  deriving DecidableEq, Repr

structure ServiceResources where
  memoryLimitMB : Int
  deriving DecidableEq, Repr

structure ServiceHealthcheck where
  command : List String
  intervalSeconds : Int
  timeoutSeconds : Int
  retries : Int
  startPeriodSeconds : Int
  deriving DecidableEq, Repr

structure Service where
  id : String
  name : String
  serviceType : String
  image : String
  internalPort : Int
  hostnames : List String
  env : List (String × String)
  volumes : List String
  healthcheck : Option ServiceHealthcheck
  resources : ServiceResources
  enabled : Bool
  lastDeploy : Option Nat
  status : String
  deriving DecidableEq, Repr

structure APIToken where
  id : String
  name : String
  hash : String
  createdAt : Nat
  lastUsed : Option Nat
  deriving DecidableEq, Repr

structure State where
  settings : GlobalSettings
  services : List Service
  tokens : List APIToken
  createdAt : Nat
  updatedAt : Nat
  deriving DecidableEq, Repr

def emptyTunnelSettings : TunnelSettings :=
  ⟨"", "", "", "", "", ""⟩

def emptyRemoteSettings : RemoteSettings :=
  ⟨false, "", "", "", ⟨"", "", ""⟩⟩

/-- `state.NewState()`: the defaulted fresh state (`now` stands for
`time.Now().UTC()`). -/
def newState (now : Nat) : State where
  settings :=
    { composeProjectName := "tinyserve"
      defaultDomain := ""
      tunnel := { emptyTunnelSettings with mode := "token" }
      uiLocalPort := 7070
      maxBackups := 0
      remote := emptyRemoteSettings
      cloudflareAPIToken := "" }
  services := []
  tokens := []
  createdAt := now
  updatedAt := now

/-- `State.Validate`: only the compose project name is checked. -/
def stateValidate (s : State) : Bool :=
  s.settings.composeProjectName ≠ ""

/-! ## State stores (`internal/state`)

Each store is modelled by a pure `save` (producing the persisted
representation) and `load` (reading it back).  `now` arguments stand for
`time.Now().UTC()` at the respective call.  Serialization steps that are
bijective on the logical content are modelled as the identity:
`encoding/json` round-trips every field of `State` (slices and maps up to
nil-versus-empty and key order, which the model's lists already quotient),
and `time.Format(RFC3339Nano)`/`time.Parse` round-trip a UTC timestamp. -/

/-- `InMemoryStore.Save`: `s.Touch()` then replace the held state.  There is
no validation in this store. -/
def inMemorySave (now : Nat) (s : State) : State :=
  { s with updatedAt := now }

/-- `InMemoryStore.Load`: return the held state. -/
def inMemoryLoad (held : State) : State :=
  held

/-- `FileStore.Save`: default `CreatedAt`, `Touch`, `Validate`, then write the
JSON document (modelled as the logical state). -/
def fileSave (now : Nat) (s : State) : Except String State :=
  let s1 := if s.createdAt == 0 then { s with createdAt := now } else s
  let s2 := { s1 with updatedAt := now }
  if stateValidate s2 then .ok s2 else .error "compose project name is required"

/-- `FileStore.Load`: a missing file yields `NewState()`; otherwise decode and
default zero timestamps and an empty compose project name. -/
def fileLoad (now : Nat) (file : Option State) : State :=
  match file with
  | none => newState now
  | some s =>
    let s1 := if s.createdAt == 0 then { s with createdAt := now } else s
    let s2 := if s1.updatedAt == 0 then { s1 with updatedAt := s1.createdAt } else s1
    if s2.settings.composeProjectName = "" then
      { s2 with settings := { s2.settings with composeProjectName := "tinyserve" } }
    else s2

/-- The `settings` table of the SQLite schema (`sqlite_store.go`), one column
per field.  Nullable TEXT columns written through `nullString` are `Option
String`; timestamps are stored as RFC3339Nano text, modelled as the `Nat`
they encode.  Note the schema has no columns for the `remote` settings nor
for `cloudflare_api_token`, and no `tokens` table exists at all. -/
structure SettingsRow where
  composeProjectName : String
  defaultDomain : Option String
  tunnelMode : String
  tunnelToken : Option String
  tunnelCredentialsFile : Option String
  tunnelID : Option String
  tunnelName : Option String
  tunnelAccountID : Option String
  uiLocalPort : Int
  maxBackups : Option Int
  createdAt : Nat
  updatedAt : Nat
  deriving DecidableEq, Repr

/-- A row of the `services` table.  The JSON-serialized columns
(`hostnames`, `env`, `volumes`, `healthcheck`) are modelled by the values
they encode; `healthcheck` stores the empty marker (`none`) when the service
has no healthcheck (Go writes `""`). -/
structure ServiceRow where
  id : String
  name : String
  serviceType : String
  image : String
  internalPort : Int
  hostnames : List String
  env : List (String × String)
  volumes : List String
  healthcheck : Option ServiceHealthcheck
  memoryLimitMB : Int
  enabled : Int
  lastDeploy : Option Nat
  status : Option String
  deriving DecidableEq, Repr

/-- The SQLite database contents relevant to `Save`/`Load`: the singleton
settings row and the services table. -/
structure SqliteDb where
  settingsRow : Option SettingsRow
  serviceRows : List ServiceRow
  deriving DecidableEq, Repr

/-- `nullString` from `sqlite_store.go`: empty strings are stored as NULL. -/
def nullString (s : String) : Option String :=
  if s = "" then none else some s

/-- Reading a nullable TEXT column back (`sql.NullString.String` is `""` for
NULL). -/
def fromNull (o : Option String) : String :=
  o.getD ""

/-- `SQLiteStore.Save`: validate, touch, upsert the settings row, delete
service rows absent from the new set, upsert the rest.  Tokens, remote
settings and the Cloudflare API token have no schema home and are not
written. -/
def sqliteSave (now : Nat) (st : State) : Except String SqliteDb :=
  if !stateValidate st then .error "compose project name is required"
  else
    let st := { st with updatedAt := now }
    .ok
      { settingsRow := some
          { composeProjectName := st.settings.composeProjectName
            defaultDomain := nullString st.settings.defaultDomain
            tunnelMode := st.settings.tunnel.mode
            tunnelToken := nullString st.settings.tunnel.token
            tunnelCredentialsFile := nullString st.settings.tunnel.credentialsFile
            tunnelID := nullString st.settings.tunnel.tunnelID
            tunnelName := nullString st.settings.tunnel.tunnelName
            tunnelAccountID := nullString st.settings.tunnel.accountID
            uiLocalPort := st.settings.uiLocalPort
            maxBackups := some st.settings.maxBackups
            createdAt := st.createdAt
            updatedAt := st.updatedAt }
        serviceRows := st.services.map fun svc =>
          { id := svc.id
            name := svc.name
            serviceType := svc.serviceType
            image := svc.image
            internalPort := svc.internalPort
            hostnames := svc.hostnames
            env := svc.env
            volumes := svc.volumes
            healthcheck := svc.healthcheck
            memoryLimitMB := svc.resources.memoryLimitMB
            enabled := if svc.enabled then 1 else 0
            lastDeploy := svc.lastDeploy
            status := nullString svc.status } }

/-- `SQLiteStore.Load`: start from `NewState()` and fill in what the schema
holds.  A missing settings row returns the fresh state immediately (before
reading services); the remote settings, the Cloudflare API token and the
tokens list always keep their `NewState` zero values. -/
def sqliteLoad (now : Nat) (db : SqliteDb) : State :=
  let st := newState now
  match db.settingsRow with
  | none => st
  | some row =>
    { st with
      settings :=
        { st.settings with
          composeProjectName := row.composeProjectName
          defaultDomain := fromNull row.defaultDomain
          tunnel :=
            { mode := row.tunnelMode
              token := fromNull row.tunnelToken
              credentialsFile := fromNull row.tunnelCredentialsFile
              tunnelID := fromNull row.tunnelID
              tunnelName := fromNull row.tunnelName
              accountID := fromNull row.tunnelAccountID }
          uiLocalPort := row.uiLocalPort
          maxBackups := row.maxBackups.getD st.settings.maxBackups }
      createdAt := row.createdAt
      updatedAt := row.updatedAt
      services := db.serviceRows.map fun r =>
        { id := r.id
          name := r.name
          serviceType := r.serviceType
          image := r.image
          internalPort := r.internalPort
          hostnames := r.hostnames
          env := r.env
          volumes := r.volumes
          healthcheck := r.healthcheck
          resources := { memoryLimitMB := r.memoryLimitMB }
          enabled := r.enabled == (1 : Int)
          lastDeploy := r.lastDeploy
          status := fromNull r.status } }

/-! ## Config generator (`internal/generate/generate.go`) -/

/-- One pass of `nameSanitizer.ReplaceAllString(name, "-")`: each maximal run
of characters outside `[a-zA-Z0-9-]` becomes a single dash. -/
def sanitizeCollapse : List Char → List Char
  | [] => []
  | c :: rest =>
    if isAlnumChar c || c == '-' then c :: sanitizeCollapse rest
    else '-' :: sanitizeCollapse (rest.dropWhile fun d => !(isAlnumChar d || d == '-'))
termination_by l => l.length
decreasing_by
  simp_wf
  exact Nat.lt_succ_of_le ((List.dropWhile_sublist _).length_le)

/-- `sanitizeName` from `internal/generate/generate.go` (distinct from the
API-layer one): lower-case, collapse illegal runs to dashes, trim dashes. -/
def genSanitizeName (name : String) : String :=
  let collapsed := sanitizeCollapse (lowerAscii (trimSpace name)).data
  ⟨((collapsed.dropWhile (· == '-')).reverse.dropWhile (· == '-')).reverse⟩

/-- `remoteUIHostname`. -/
def remoteUIHostname (s : State) : String :=
  if s.settings.remote.uiHostname ≠ "" then s.settings.remote.uiHostname
  else s.settings.remote.hostname

/-- `remoteAPIHostname`. -/
def remoteAPIHostname (s : State) : String :=
  s.settings.remote.apiHostname

/-- `unique` from `generate.go`, with the seen-set made explicit: drops empty
strings and every repetition of an already-seen string (exact comparison,
not case-insensitive). -/
def uniqueAux (seen : List String) : List String → List String
  | [] => []
  | h :: t =>
    if h = "" then uniqueAux seen t
    else if h ∈ seen then uniqueAux seen t
    else h :: uniqueAux (h :: seen) t

def unique (l : List String) : List String :=
  uniqueAux [] l

/-- The hostnames contributed by one user service inside `collectHostnames`. -/
def serviceHosts (domain : String) (svc : Service) : List String :=
  if !svc.enabled then []
  else if svc.hostnames ≠ [] then svc.hostnames
  else if domain ≠ "" ∧ svc.name ≠ "" then [genSanitizeName svc.name ++ "." ++ domain]
  else []

/-- `collectHostnames`. -/
def collectHostnames (s : State) : List String :=
  let domain := if s.settings.defaultDomain = "" then "example.com" else s.settings.defaultDomain
  let hosts := ("whoami." ++ domain) :: s.services.flatMap (serviceHosts domain)
  let hosts := hosts ++
    (if s.settings.remote.enabled ∧ s.settings.remote.hostname ≠ "" then
      [s.settings.remote.hostname] else [])
  let hosts := hosts ++
    (if s.settings.remote.enabled then
      (if remoteUIHostname s ≠ "" then [remoteUIHostname s] else []) ++
      (if remoteAPIHostname s ≠ "" then [remoteAPIHostname s] else [])
    else [])
  unique hosts

/-- Lexicographic comparison of character lists by code point: Go's
byte-wise string `<=` on ASCII strings. -/
def charListLe : List Char → List Char → Bool
  | [], _ => true
  | _ :: _, [] => false
  | a :: as, b :: bs =>
    if a.toNat < b.toNat then true
    else if b.toNat < a.toNat then false
    else charListLe as bs

/-- Go's string `<=` (byte-wise ascending on ASCII input). -/
def strLeB (a b : String) : Bool :=
  charListLe a.data b.data

/-- Insertion step of the sorting model for Go `sort.Strings`. -/
def insertStr (x : String) : List String → List String
  | [] => [x]
  | y :: ys => if strLeB x y then x :: y :: ys else y :: insertStr x ys

/-- Go `sort.Strings`, modelled as insertion sort (same sorted result). -/
def sortStrings : List String → List String
  | [] => []
  | x :: xs => insertStr x (sortStrings xs)

/-- One `ingress:` rule of `cloudflared/config.yml`; the final catch-all rule
has no hostname. -/
structure IngressRule where
  hostname : Option String
  service : String
  deriving DecidableEq, Repr

/-- The hostname list as `writeCloudflared` emits it: the collected
hostnames (defaulted when empty) sorted by `sort.Strings`. -/
def ingressHostnames (s : State) : List String :=
  let hs := collectHostnames s
  let hs := if hs = [] then ["whoami.example.com"] else hs
  sortStrings hs

/-- The full ingress rule list of `writeCloudflared`.  `uiPort` and
`webhookPort` model `uiProxyPort()`/`webhookProxyPort()` (environment
dependent, default "7071"/"7072"). -/
def ingressRules (uiPort webhookPort : String) (s : State) : List IngressRule :=
  let uiHost := remoteUIHostname s
  let apiHost := remoteAPIHostname s
  ((ingressHostnames s).map fun h =>
    { hostname := some h
      service :=
        if uiHost ≠ "" ∧ eqFold h uiHost then
          "http://host.docker.internal:" ++ uiPort
        else if apiHost ≠ "" ∧ eqFold h apiHost then
          "http://host.docker.internal:" ++ webhookPort
        else "http://traefik:80" })
  ++ [{ hostname := none, service := "http_status:404" }]

/-! ## `POST /services` (`Handler.handleAddService`, `internal/api/api.go`)

The handler is modelled as a pure transition on the state document, with
the docker and Cloudflare subprocess/API results supplied by environment
records.  Errors carry the HTTP status code and message. -/

/-- Split at the last occurrence of `sep`: `some (before, after)`. -/
def splitLast (sep : Char) (l : List Char) : Option (List Char × List Char) :=
  match splitFirst sep l.reverse with
  | none => none
  | some (afterRev, beforeRev) => some (beforeRev.reverse, afterRev.reverse)

/-- `nameFromImage`: strip `:tag` (unless a `/` follows the last colon),
strip `@digest`, take the last path component, then `sanitizeName`. -/
def nameFromImage (image : String) : String :=
  let l := image.data
  let l :=
    match splitLast ':' l with
    | some (before, after) => if after.contains '/' then l else before
    | none => l
  let l :=
    match splitLast '@' l with
    | some (before, _) => before
    | none => l
  let l :=
    match splitLast '/' l with
    | some (_, after) => after
    | none => l
  sanitizeName ⟨l⟩

/-- The decoded request body of `POST /services` (`addServiceRequest`). -/
structure AddServiceRequest where
  id : String
  name : String
  reqType : String
  image : String
  internalPort : Int
  hostnames : List String
  env : List (String × String)
  volumes : List String
  healthcheck : Option ServiceHealthcheck
  resources : ServiceResources
  enabled : Option Bool
  cloudflare : Bool

/-- The defaulted request: everything zero/empty, as an absent JSON field
decodes. -/
def defaultAddServiceRequest : AddServiceRequest where
  id := ""
  name := ""
  reqType := ""
  image := ""
  internalPort := 0
  hostnames := []
  env := []
  volumes := []
  healthcheck := none
  resources := ⟨0⟩
  enabled := none
  cloudflare := false

/-- Results of the docker calls `handleAddService` can make during port
auto-detection. -/
structure DockerEnv where
  pullImageErr : Option String
  inspectPort : Except String Int

/-- Results of the Cloudflare API calls, per hostname. -/
structure CloudflareEnv where
  zoneID : String → Except String String
  ensureCNAME : String → Except String Unit

/-- A docker/Cloudflare environment for requests that never touch either
(explicit port, `cloudflare=false`). -/
def idleDockerEnv : DockerEnv := ⟨none, .error "unused"⟩

def idleCfEnv : CloudflareEnv := ⟨fun _ => .error "unused", fun _ => .error "unused"⟩

/-- The duplicate-name / duplicate-hostname scan over the existing services
(the final loop of `handleAddService`): first hit wins, 409 either way.
Hostnames of the *new* service are never compared with each other. -/
def collisionCheck (svc : Service) : List Service → Option (Int × String)
  | [] => none
  | e :: rest =>
    if eqFold e.name svc.name then some (409, "service name already exists")
    else
      match e.hostnames.findSome? (fun eh => svc.hostnames.find? fun nh => eqFold eh nh) with
      | some nh =>
        some (409, "hostname " ++ nh ++ " already used by service " ++ e.name)
      | none => collisionCheck svc rest

/-- The `state.Service` literal `handleAddService` builds from the decoded
payload (names and image trimmed, `enabled` defaulted to true). -/
def buildService (payload : AddServiceRequest) : Service where
  id := payload.id
  name := trimSpace payload.name
  serviceType := payload.reqType
  image := trimSpace payload.image
  internalPort := payload.internalPort
  hostnames := payload.hostnames
  env := payload.env
  volumes := payload.volumes
  healthcheck := payload.healthcheck
  resources := payload.resources
  enabled := payload.enabled.getD true
  lastDeploy := none
  status := ""

/-- Port auto-detection: pull the image and read its first exposed port,
falling back to 80, when `internal_port` was omitted. -/
def detectPort (denv : DockerEnv) (svc : Service) : Except (Int × String) Service :=
  if svc.internalPort == 0 then
    match denv.pullImageErr with
    | some e => throw (400, "failed to pull image for port detection: " ++ e)
    | none =>
      match denv.inspectPort with
      | .error e => throw (400, "failed to detect port from image: " ++ e)
      | .ok port => pure { svc with internalPort := if port == 0 then 80 else port }
  else pure svc

/-- A Go `for … range` loop whose body either errors out of the handler or
continues with the next element. -/
def firstErr {α : Type} (f : α → Option (Int × String)) : List α → Except (Int × String) Unit
  | [] => pure ()
  | x :: rest =>
    match f x with
    | some e => throw e
    | none => firstErr f rest

/-- The validator ladder of `handleAddService`, in source order. -/
def validateService (svc : Service) : Except (Int × String) Unit :=
  (if !serviceNameOK svc.name then throw ((400 : Int), "invalid service name")
   else pure ()) >>= fun _ =>
  (if !imageNameOK svc.image then throw ((400 : Int), "invalid image name format")
   else pure ()) >>= fun _ =>
  (if !portOK svc.internalPort then throw ((400 : Int), "port must be between 1 and 65535")
   else pure ()) >>= fun _ =>
  firstErr (fun h =>
    if !hostnameOK h then some (400, "invalid hostname format") else none)
    svc.hostnames >>= fun _ =>
  firstErr (fun kv =>
    if !envKeyOK kv.1 then some (400, "invalid environment variable key")
    else if !envValueOK kv.2 then some (400, "invalid environment variable value")
    else none) svc.env >>= fun _ =>
  firstErr (fun v =>
    if !volumePathOK v then some (400, "invalid volume") else none) svc.volumes >>= fun _ =>
  match svc.healthcheck with
  | some hc =>
    if !healthcheckCommandOK hc.command then throw ((400 : Int), "invalid healthcheck")
    else pure ()
  | none => pure ()

/-- The defaulting block after validation: service type, memory limit,
the forced `enabled := true`, and the server-assigned ID. -/
def applyDefaults (unixNow : Int) (svc : Service) : Service :=
  let svc := if svc.serviceType = "" then { svc with serviceType := "registry-image" } else svc
  let svc :=
    if svc.resources.memoryLimitMB == 0 then { svc with resources := ⟨256⟩ } else svc
  let svc := if svc.enabled == false then { svc with enabled := true } else svc
  if svc.id = "" then { svc with id := sanitizeName svc.name ++ "-" ++ toString unixNow }
  else svc

/-- The optional Cloudflare DNS block of `handleAddService`. -/
def cloudflareSetup (cfenv : CloudflareEnv) (st : State) (cloudflare : Bool)
    (svc : Service) : Except (Int × String) Unit :=
  if cloudflare ∧ svc.hostnames ≠ [] then
    if st.settings.cloudflareAPIToken = "" ∨ st.settings.tunnel.tunnelID = "" then
      throw (400, "cloudflare tunnel not initialized; run tinyserve init first")
    else
      firstErr (fun h =>
        match cfenv.zoneID h with
        | .error e => some (400, "get zone ID for " ++ h ++ ": " ++ e)
        | .ok _ =>
          match cfenv.ensureCNAME h with
          | .error e => some (500, "configure DNS for " ++ h ++ ": " ++ e)
          | .ok _ => none) svc.hostnames
  else pure ()

/-- The pure prelude of `handleAddService`: build the service from the
payload, require an image, derive a missing name from the image, and
synthesize a hostname from the default domain when none was given. -/
def prepareService (st : State) (payload : AddServiceRequest) :
    Except (Int × String) Service :=
  let svc := buildService payload
  if svc.image = "" then throw (400, "image is required") else
  let svc := if svc.name = "" then { svc with name := nameFromImage svc.image } else svc
  let svc :=
    if svc.hostnames = [] ∧ st.settings.defaultDomain ≠ "" then
      { svc with hostnames := [sanitizeName svc.name ++ "." ++ st.settings.defaultDomain] }
    else svc
  pure svc

/-- The duplicate scan as the handler runs it: a conflict throws, otherwise
control continues. -/
def collisionGate (svc : Service) (existing : List Service) : Except (Int × String) Unit :=
  match collisionCheck svc existing with
  | some err => throw err
  | none => pure ()

/-- The final persistence step: append the new service and run the store's
`State.Validate`-gated save. -/
def persistService (st : State) (svc : Service) : Except (Int × String) (State × Service) :=
  if !stateValidate { st with services := st.services ++ [svc] } then
    throw (500, "save state: validation failed")
  else pure ({ st with services := st.services ++ [svc] }, svc)

/-- `Handler.handleAddService`, after JSON decoding, as a transition from the
loaded state to the state handed to `Store.Save` plus the created service.
`unixNow` is `time.Now().Unix()` (the ID suffix); validation errors are
`(400, msg)`, conflicts `(409, msg)`; the trailing validation models the
`Store.Save` contract (`State.Validate` before persisting). -/
def addService (denv : DockerEnv) (cfenv : CloudflareEnv) (st : State)
    (payload : AddServiceRequest) (unixNow : Int) :
    Except (Int × String) (State × Service) :=
  prepareService st payload >>= fun svc =>
  detectPort denv svc >>= fun svc =>
  validateService svc >>= fun _ =>
  let svc := applyDefaults unixNow svc
  cloudflareSetup cfenv st payload.cloudflare svc >>= fun _ =>
  collisionGate svc st.services >>= fun _ =>
  persistService st svc

/-- One request of a `POST /services` sequence: its environments, payload
and ID timestamp. -/
structure AddStep where
  denv : DockerEnv
  cfenv : CloudflareEnv
  payload : AddServiceRequest
  unixNow : Int

/-- A sequence of `POST /services` requests, each of which must succeed
(`none` when any request fails). -/
def addSequence (st : State) : List AddStep → Option State
  | [] => some st
  | step :: rest =>
    match addService step.denv step.cfenv st step.payload step.unixNow with
    | .ok (st', _) => addSequence st' rest
    | .error _ => none

/-! ## `POST /deploy` (`Handler.handleDeploy`, `internal/api/api.go`)

The generate / docker / backup / promote phases are contacts with the
outside world; their results come from a `DeployEnv` record (one `Option
String` per phase, `none` = success). -/

structure DeployRequest where
  service : String
  services : List String
  timeoutMs : Int

structure DeployEnv where
  generateErr : Option String
  pullErr : Option String
  backupStateErr : Option String
  backupConfigErr : Option String
  upErr : Option String
  waitErr : Option String
  rollbackErr : Option String
  promoteErr : Option String
  saveErr : Option String

def allOkDeployEnv : DeployEnv :=
  ⟨none, none, none, none, none, none, none, none, none⟩

/-- The docker-compose targets of a deploy: the sanitized `services` list
when non-empty, else the sanitized singleton `service`, else all. -/
def deployTargets (req : DeployRequest) : List String :=
  if req.services ≠ [] then (req.services.filter (· ≠ "")).map sanitizeName
  else if req.service ≠ "" then [sanitizeName req.service]
  else []

/-- The `last_deploy` stamping loop after promotion: a service is stamped
when `req.Service` is empty or case-insensitively equal to its name (the
`services` list plays no role here). -/
def stampLastDeploy (reqService : String) (now : Nat) (svcs : List Service) : List Service :=
  svcs.map fun svc =>
    if reqService = "" ∨ eqFold svc.name reqService then { svc with lastDeploy := some now }
    else svc

structure DeployOutcome where
  status : Int
  body : String
  savedState : Option State
  promoted : Bool

/-- `Handler.handleDeploy` after JSON decoding: the phase ladder with its
error responses, the rollback on health failure, stamping, and save. -/
def handleDeploy (env : DeployEnv) (req : DeployRequest) (st : State) (now : Nat) :
    DeployOutcome :=
  match env.generateErr with
  | some e => ⟨500, "generate: " ++ e, none, false⟩
  | none =>
  match env.pullErr with
  | some e =>
    if !strContains e "No such service" then ⟨500, "docker pull: " ++ e, none, false⟩
    else handleDeployAfterPull env req st now
  | none => handleDeployAfterPull env req st now
where
  handleDeployAfterPull (env : DeployEnv) (req : DeployRequest) (st : State) (now : Nat) :
      DeployOutcome :=
    match env.backupStateErr with
    | some e => ⟨500, "backup state: " ++ e, none, false⟩
    | none =>
    match env.backupConfigErr with
    | some e => ⟨500, "backup config: " ++ e, none, false⟩
    | none =>
    match env.upErr with
    | some e => ⟨500, "docker up: " ++ e, none, false⟩
    | none =>
    match env.waitErr with
    | some e =>
      match env.rollbackErr with
      | some r =>
        ⟨500, "health check failed: " ++ e ++ "; rollback also failed: " ++ r, none, false⟩
      | none => ⟨500, "health check failed, rolled back: " ++ e, none, false⟩
    | none =>
    match env.promoteErr with
    | some e => ⟨500, "promote staging: " ++ e, none, false⟩
    | none =>
      let stamped := { st with services := stampLastDeploy req.service now st.services }
      match env.saveErr with
      | some e => ⟨500, "save state: " ++ e, none, true⟩
      | none => ⟨200, "deployed", some stamped, true⟩

/-! ## Backup pruning (`Handler.pruneBackups`) -/

/-- A directory entry of the backups directory as `os.ReadDir` reports it. -/
structure DirEntry where
  name : String
  isDir : Bool
  deriving DecidableEq, Repr

/-- The names the prune treats as backup bundles: `backup-*` directories. -/
def backupDirNames (entries : List DirEntry) : List String :=
  (entries.filter fun e => strStartsWith e.name "backup-" && e.isDir).map (·.name)

/-- The names the prune treats as state snapshots: `state-*.json` entries
(no directory check in the source). -/
def stateFileNames (entries : List DirEntry) : List String :=
  (entries.filter fun e =>
    strStartsWith e.name "state-" && strEndsWith e.name ".json").map (·.name)

/-- The effective keep bound: `maxKeep <= 0` falls back to 10. -/
def effectiveMaxKeep (maxKeep : Int) : Nat :=
  if maxKeep ≤ 0 then 10 else maxKeep.toNat

/-- The leading `len - maxKeep` names of one sorted kind, when over the
limit: exactly the slice `backupDirs[:len(backupDirs)-maxKeep]` the source
deletes. -/
def removedLow (mk : Nat) (l : List String) : List String :=
  if (sortStrings l).length > mk then (sortStrings l).take ((sortStrings l).length - mk)
  else []

/-- The names `pruneBackups` deletes, per kind. -/
def pruneRemovedNames (maxKeep : Int) (entries : List DirEntry) : List String × List String :=
  (removedLow (effectiveMaxKeep maxKeep) (backupDirNames entries),
   removedLow (effectiveMaxKeep maxKeep) (stateFileNames entries))

/-- `Handler.pruneBackups` as a transformation of the directory listing.
`os.RemoveAll` on a `backup-*` directory always removes it; `os.Remove` on a
`state-*.json` entry is modelled as removing it, which is exact whenever
those entries are regular files (the only case the theorems rely on). -/
def pruneBackups (maxKeep : Int) (entries : List DirEntry) : List DirEntry :=
  let (rb, rs) := pruneRemovedNames maxKeep entries
  entries.filter fun e => ¬(e.name ∈ rb ∨ e.name ∈ rs)

/-! ## `Runner.WaitHealthy` (`internal/docker/docker.go`) -/

/-- One entry of `docker compose ps --format json`. -/
structure ContainerStatus where
  name : String
  service : String
  state : String
  health : String
  deriving DecidableEq, Repr

/-- Whether one container passes the loop body's check: lower-cased state
starts with `running`, and lower-cased health is empty or `healthy`. -/
def containerHealthy (c : ContainerStatus) : Bool :=
  strStartsWith (lowerAscii c.state) "running" &&
    (lowerAscii c.health == "" || lowerAscii c.health == "healthy")

/-- Whether the loop inspects this container at all: always when the filter
is empty, otherwise when its lower-cased service name is in the target set. -/
def containerChecked (targets : List String) (c : ContainerStatus) : Bool :=
  targets.isEmpty || (targets.map lowerAscii).contains (lowerAscii c.service)

/-- The `allHealthy` scan of one `PSStatus` result: every *reported*
container that the filter selects passes `containerHealthy`. -/
def allHealthyCheck (targets : List String) (cs : List ContainerStatus) : Bool :=
  cs.all fun c => !containerChecked targets c || containerHealthy c

/-- One iteration of the `WaitHealthy` polling loop: the `PSStatus` result
(`none` = error return) and whether the context is cancelled before the
next 2-second tick.  The deadline is modelled by the tick list running out. -/
structure PollTick where
  poll : Option (List ContainerStatus)
  ctxCancelled : Bool

inductive WaitOutcome where
  | success
  | timeoutErr
  | cancelled
  deriving DecidableEq, Repr

/-- Whether one loop iteration returns: `PSStatus` succeeded with a
non-empty container list and the `allHealthy` scan passed
(`if err == nil && len(containers) > 0 { … if allHealthy { return nil } }`). -/
def tickPasses (targets : List String) (t : PollTick) : Bool :=
  match t.poll with
  | some cs => !cs.isEmpty && allHealthyCheck targets cs
  | none => false

/-- `Runner.WaitHealthy`: succeed as soon as a poll returns a non-empty
container list passing `allHealthyCheck`; report timeout when the deadline
(the end of the tick list) arrives first; propagate cancellation observed
while waiting for the next tick. -/
def waitHealthy (targets : List String) : List PollTick → WaitOutcome
  | [] => .timeoutErr
  | t :: rest =>
    if tickPasses targets t then .success
    else if t.ctxCancelled then .cancelled
    else waitHealthy targets rest

/-! ## Promotion (`Handler.promote`) and deploy interleaving

`promote` is two renames: move `current/` aside to `backups/backup-<ts>/`
(when it exists), then rename the staging directory onto `current/`.  The
model below runs two `handleDeploy` executions step by step under an
arbitrary interleaving — faithful to the source, which takes no lock
anywhere on the deploy path. -/

/-- The filesystem state promotion touches.  `current` records which staging
bundle occupies `current/` (by directory name). -/
structure PromoteFs where
  current : Option String
  backups : List (String × String)
  stagings : List String
  deriving DecidableEq, Repr

/-- First half of `promote`: if `current/` exists, remove any stale backup
target and rename `current/` to `backups/backup-<ts>/`. -/
def promoteStep1 (ts : String) (fs : PromoteFs) : PromoteFs :=
  match fs.current with
  | some b => { fs with current := none, backups := ("backup-" ++ ts, b) :: fs.backups }
  | none => fs

/-- Second half of `promote`: `os.Rename(stagingDir, current)`.  The rename
fails when the staging directory is gone or `current/` is (re)occupied —
a rename onto an existing non-empty directory fails on POSIX. -/
def promoteStep2 (staging : String) (fs : PromoteFs) : Except String PromoteFs :=
  if fs.current ≠ none then .error "promote staging: file exists"
  else if staging ∉ fs.stagings then .error "promote staging: no such file or directory"
  else .ok { fs with current := some staging, stagings := fs.stagings.erase staging }

/-- The steps of one `handleDeploy` execution that matter to promotion.
`gen` creates the staging directory; `backup`, `up` and `wait` contact
docker (successful here); `prom1`/`prom2` are the two renames of `promote`. -/
inductive DeployAct where
  | gen
  | backup
  | up
  | wait
  | prom1
  | prom2
  deriving DecidableEq, Repr

/-- One in-flight deploy: its staging-directory name, its backup timestamp,
its remaining program, and whether it promoted or failed. -/
structure DeployProc where
  staging : String
  ts : String
  prog : List DeployAct
  promoted : Bool
  failed : Bool
  deriving DecidableEq, Repr

def freshDeployProc (staging ts : String) : DeployProc :=
  ⟨staging, ts, [.gen, .backup, .up, .wait, .prom1, .prom2], false, false⟩

/-- Execute the next step of one deploy against the shared filesystem. -/
def deployStep (fs : PromoteFs) (p : DeployProc) : PromoteFs × DeployProc :=
  match p.prog with
  | [] => (fs, p)
  | act :: rest =>
    match act with
    | .gen => ({ fs with stagings := p.staging :: fs.stagings }, { p with prog := rest })
    | .backup | .up | .wait => (fs, { p with prog := rest })
    | .prom1 => (promoteStep1 p.ts fs, { p with prog := rest })
    | .prom2 =>
      match promoteStep2 p.staging fs with
      | .ok fs' => (fs', { p with prog := rest, promoted := true })
      | .error _ => (fs, { p with prog := rest, failed := true })

/-- Two concurrent deploys and the shared filesystem. -/
structure TwoDeploys where
  fs : PromoteFs
  a : DeployProc
  b : DeployProc
  deriving DecidableEq, Repr

/-- Run the steps of the two deploys in the order given by the schedule
(`false` = a step of deploy A, `true` = a step of deploy B).  The source has
no mutex or channel gate on this path, so every schedule is a possible
execution. -/
def runSchedule (w : TwoDeploys) : List Bool → TwoDeploys
  | [] => w
  | pid :: rest =>
    let w' :=
      if pid then
        let (fs', b') := deployStep w.fs w.b
        { w with fs := fs', b := b' }
      else
        let (fs', a') := deployStep w.fs w.a
        { w with fs := fs', a := a' }
    runSchedule w' rest

/-! ## Invariants and concrete inputs used by the claims -/

/-- No hostname of one service equals, case-insensitively, a hostname of a
*different* service. -/
def crossHostnameUnique (svcs : List Service) : Prop :=
  svcs.Pairwise fun s t => ∀ h ∈ s.hostnames, ∀ h' ∈ t.hostnames, eqFold h h' = false

/-- Every stored service has a port in `[1, 65535]`. -/
def portsValid (svcs : List Service) : Prop :=
  ∀ svc ∈ svcs, portOK svc.internalPort = true

/-- A request carrying two case-insensitively equal hostnames. -/
def dupHostPayload : AddServiceRequest :=
  { defaultAddServiceRequest with
    name := "app1", image := "nginx", internalPort := 80
    hostnames := ["A.x.io", "a.x.io"] }

/-- A request explicitly asking for a disabled service. -/
def disabledPayload : AddServiceRequest :=
  { defaultAddServiceRequest with
    name := "app1", image := "nginx", internalPort := 80, enabled := some false }

/-- A request with a negative memory limit. -/
def negMemPayload : AddServiceRequest :=
  { defaultAddServiceRequest with
    name := "app2", image := "redis", internalPort := 80, resources := ⟨-5⟩ }

/-- A plain valid request. -/
def plainPayload : AddServiceRequest :=
  { defaultAddServiceRequest with
    name := "web", image := "nginx", internalPort := 80, hostnames := ["web.x.io"] }

/-- A state holding a token, a Cloudflare API token, and enabled remote
settings — the logical content C1 says every store round-trips. -/
def tokenRemoteState : State :=
  { newState 3 with
    tokens := [⟨"0123456789abcdef", "ci", "bcrypt-hash-value", 3, none⟩]
    settings :=
      { (newState 3).settings with
        cloudflareAPIToken := "cf-token"
        remote :=
          { enabled := true, hostname := "ui.x.io", uiHostname := "ui.x.io"
            apiHostname := "api.x.io", browserAuth := ⟨"cloudflare_access", "t", "aud"⟩ } } }

/-- Two services for the deploy-stamping counterexample. -/
def svcApp1 : Service :=
  ⟨"app1-1", "app1", "registry-image", "nginx", 80, ["app1.x.io"], [], [], none, ⟨256⟩,
    true, none, ""⟩

def svcApp2 : Service :=
  ⟨"app2-1", "app2", "registry-image", "redis", 81, ["app2.x.io"], [], [], none, ⟨256⟩,
    true, none, ""⟩

def twoSvcState : State :=
  { newState 3 with services := [svcApp1, svcApp2] }

/-- A deploy request that targets only `app1` through the `services` list. -/
def servicesListReq : DeployRequest :=
  ⟨"", ["app1"], 0⟩

/-- A state whose one enabled service carries two case-insensitively equal
hostnames (accepted by `handleAddService`, see the C2 counterexample). -/
def dupHostState : State :=
  { newState 3 with
    settings := { (newState 3).settings with defaultDomain := "x.io" }
    services :=
      [⟨"app1-1", "app1", "registry-image", "nginx", 80, ["A.x.io", "a.x.io"], [], [],
        none, ⟨256⟩, true, none, ""⟩] }

/-- Eleven plain files named `backup-*`: `pruneBackups` only prunes
`backup-*` *directories*, so all eleven survive. -/
def elevenBackupFiles : List DirEntry :=
  [⟨"backup-a0", false⟩, ⟨"backup-a1", false⟩, ⟨"backup-a2", false⟩,
   ⟨"backup-a3", false⟩, ⟨"backup-a4", false⟩, ⟨"backup-a5", false⟩,
   ⟨"backup-a6", false⟩, ⟨"backup-a7", false⟩, ⟨"backup-a8", false⟩,
   ⟨"backup-a9", false⟩, ⟨"backup-b0", false⟩]

/-- One poll answer reporting a single healthy `web` container. -/
def webOnlyPoll : PollTick :=
  ⟨some [⟨"proj-web-1", "web", "running", ""⟩], false⟩

/-- The initial world of the two-deploy interleaving: a live `current/`
bundle and two deploys about to start. -/
def twoDeploysInit : TwoDeploys :=
  { fs := { current := some "bundle0", backups := [], stagings := [] }
    a := freshDeployProc "stgA" "20260101-000000"
    b := freshDeployProc "stgB" "20260101-000001" }

/-- An interleaved schedule: B starts (generates, backs up, goes up, waits)
while A is still mid-deploy, then A promotes, then B promotes.  `false` is a
step of A, `true` a step of B. -/
def interleavedSchedule : List Bool :=
  [false, true, false, true, false, true, false, true,
   false, false, true, true]

/-- The settings row `SQLiteStore.Save` writes for `tokenRemoteState`:
every schema column — and nothing else — round-trips. -/
def tokenRemoteDb : SqliteDb :=
  { settingsRow := some
      { composeProjectName := "tinyserve", defaultDomain := none, tunnelMode := "token"
        tunnelToken := none, tunnelCredentialsFile := none, tunnelID := none
        tunnelName := none, tunnelAccountID := none, uiLocalPort := 7070
        maxBackups := some 0, createdAt := 3, updatedAt := 5 }
    serviceRows := [] }

/-- The JSON document `FileStore.Save` writes for the same state. -/
def tokenRemoteFileDoc : State :=
  { tokenRemoteState with updatedAt := 5 }

/-- A deploy whose health wait fails and whose restore-from-backup also
fails. -/
def healthFailEnv : DeployEnv :=
  ⟨none, none, none, none, none, some "containers unhealthy", some "restore failed",
    none, none⟩

/-- An untargeted deploy request. -/
def allReq : DeployRequest := ⟨"", [], 0⟩

/-! ## Helper lemmas -/

theorem exBind_ok {ε α β : Type} {x : Except ε α} {f : α → Except ε β} {b : β} :
    x >>= f = .ok b ↔ ∃ a, x = .ok a ∧ f a = .ok b := by
  cases x <;> simp [Bind.bind, Except.bind]

theorem exThrow_ok {ε α : Type} {e : ε} {a : α} :
    (throw e : Except ε α) = .ok a ↔ False := by
  simp [throw, throwThe, MonadExceptOf.throw]

theorem exPure_ok {ε α : Type} {a b : α} :
    (pure a : Except ε α) = .ok b ↔ a = b := by
  simp [pure, Except.pure]

theorem exGuard_ok {ε : Type} {c : Prop} [Decidable c] {e : ε} {u : Unit} :
    ((if c then throw e else pure ()) : Except ε Unit) = .ok u ↔ ¬c := by
  split
  · simp_all [exThrow_ok]
  · simp_all [exPure_ok]

theorem applyDefaults_internalPort (n : Int) (svc : Service) :
    (applyDefaults n svc).internalPort = svc.internalPort := by
  simp only [applyDefaults]
  repeat' split
  all_goals rfl

theorem applyDefaults_enabled (n : Int) (svc : Service) :
    (applyDefaults n svc).enabled = true := by
  simp only [applyDefaults]
  repeat' split
  all_goals simp_all

theorem applyDefaults_hostnames (n : Int) (svc : Service) :
    (applyDefaults n svc).hostnames = svc.hostnames := by
  simp only [applyDefaults]
  repeat' split
  all_goals rfl

theorem validateService_port {svc : Service} {u : Unit}
    (h : validateService svc = .ok u) : portOK svc.internalPort = true := by
  unfold validateService at h
  simp only [exBind_ok, exGuard_ok] at h
  obtain ⟨_, _, _, _, _, hport, _⟩ := h
  simpa using hport

theorem collisionCheck_none {svc : Service} {l : List Service}
    (h : collisionCheck svc l = none) :
    ∀ e ∈ l, eqFold e.name svc.name = false ∧
      ∀ eh ∈ e.hostnames, ∀ nh ∈ svc.hostnames, eqFold eh nh = false := by
  induction l with
  | nil => simp
  | cons e rest ih =>
    unfold collisionCheck at h
    split at h
    · exact absurd h (by simp)
    · rename_i hname
      split at h
      · exact absurd h (by simp)
      · rename_i hfind
        intro s hs
        rcases List.mem_cons.mp hs with rfl | hs'
        · refine ⟨by simpa using hname, fun eh heh nh hnh => ?_⟩
          have h1 := List.findSome?_eq_none_iff.mp hfind eh heh
          have h2 := List.find?_eq_none.mp h1 nh hnh
          simpa using h2
        · exact ih h s hs'

/-- Every error `collisionCheck` reports is an HTTP 409 conflict. -/
theorem collisionCheck_code {svc : Service} {l : List Service} {err : Int × String}
    (h : collisionCheck svc l = some err) : err.1 = 409 := by
  induction l with
  | nil => simp [collisionCheck] at h
  | cons e rest ih =>
    unfold collisionCheck at h
    split at h
    · cases h; rfl
    · split at h
      · cases h; rfl
      · exact ih h

theorem collisionGate_ok {svc : Service} {l : List Service} {u : Unit}
    (h : collisionGate svc l = .ok u) : collisionCheck svc l = none := by
  unfold collisionGate at h
  split at h
  · simp [exThrow_ok] at h
  · assumption

theorem persistService_ok {st : State} {svc : Service} {st' : State} {r : Service}
    (h : persistService st svc = .ok (st', r)) :
    st' = { st with services := st.services ++ [svc] } ∧ r = svc ∧
      stateValidate st' = true := by
  unfold persistService at h
  split at h
  · simp [exThrow_ok] at h
  · rename_i hguard
    rw [exPure_ok] at h
    have hst : { st with services := st.services ++ [svc] } = st' := congrArg Prod.fst h
    have hr : svc = r := congrArg Prod.snd h
    refine ⟨hst.symm, hr.symm, ?_⟩
    rw [← hst]
    simpa using hguard

/-- The shape of every successful `handleAddService`: the saved state is the
old one with the created service appended; that service survived the
collision scan against the old services, carries a valid port, and is
enabled. -/
theorem addService_ok_shape {denv : DockerEnv} {cfenv : CloudflareEnv} {st : State}
    {payload : AddServiceRequest} {unixNow : Int} {st' : State} {r : Service}
    (h : addService denv cfenv st payload unixNow = .ok (st', r)) :
    st' = { st with services := st.services ++ [r] } ∧
    r.enabled = true ∧ portOK r.internalPort = true ∧
    collisionCheck r st.services = none ∧ stateValidate st' = true := by
  unfold addService at h
  simp only [exBind_ok] at h
  obtain ⟨svc1, hprep, svc2, hdet, u1, hval, u2, hcf, u3, hcol, hpers⟩ := h
  obtain ⟨hst, hr, hvalid⟩ := persistService_ok hpers
  subst hr
  refine ⟨hst, applyDefaults_enabled .., ?_, collisionGate_ok hcol, hvalid⟩
  rw [applyDefaults_internalPort]
  exact validateService_port hval

theorem crossHostnameUnique_append {l : List Service} {svc : Service}
    (hinv : crossHostnameUnique l) (hc : collisionCheck svc l = none) :
    crossHostnameUnique (l ++ [svc]) := by
  rw [crossHostnameUnique, List.pairwise_append]
  refine ⟨hinv, List.pairwise_singleton _ _, fun s hs t ht => ?_⟩
  rw [List.mem_singleton] at ht
  subst ht
  exact (collisionCheck_none hc s hs).2

/-! ## Claim theorems -/

/-- C10: `handleAddService` stores every created service with
`enabled = true`; a request body with `"enabled": false` is first honored
into the draft service and then overridden before saving. -/
theorem add_service_enabled_forced_true {denv : DockerEnv} {cfenv : CloudflareEnv}
    {st : State} {payload : AddServiceRequest} {unixNow : Int} {st' : State} {r : Service}
    (h : addService denv cfenv st payload unixNow = .ok (st', r)) :
    r.enabled = true ∧ st'.services = st.services ++ [r] := by
  obtain ⟨hst, hen, -, -, -⟩ := addService_ok_shape h
  exact ⟨hen, by rw [hst]⟩

/-- Witness for C10: the concrete request that sets `"enabled": false` still
yields an enabled service. -/
theorem add_service_enabled_forced_true_witness :
    disabledPayload.enabled = some false ∧
    ∃ st' r, addService idleDockerEnv idleCfEnv (newState 0) disabledPayload 7 =
        .ok (st', r) ∧ r.enabled = true := by
  have h : addService idleDockerEnv idleCfEnv (newState 0) disabledPayload 7 =
      .ok ({ newState 0 with services := [
        ⟨"app1-7", "app1", "registry-image", "nginx", 80, [], [], [], none, ⟨256⟩,
          true, none, ""⟩] },
        ⟨"app1-7", "app1", "registry-image", "nginx", 80, [], [], [], none, ⟨256⟩,
          true, none, ""⟩) := rfl
  exact ⟨rfl, _, _, h, (add_service_enabled_forced_true h).1⟩

/-- C2 counterexample: a single successful `POST /services` whose own
hostname list contains two case-insensitively equal entries is accepted, so
the union of stored hostnames does contain two entries that are equal under
case-insensitive comparison. -/
theorem post_services_dup_within_request :
    (∃ st' r, addService idleDockerEnv idleCfEnv (newState 0) dupHostPayload 7 =
        .ok (st', r) ∧
      st'.services.map (·.hostnames) = [["A.x.io", "a.x.io"]]) ∧
    eqFold "A.x.io" "a.x.io" = true ∧ "A.x.io" ≠ "a.x.io" := by
  have h : addService idleDockerEnv idleCfEnv (newState 0) dupHostPayload 7 =
      .ok ({ newState 0 with services := [
        ⟨"app1-7", "app1", "registry-image", "nginx", 80, ["A.x.io", "a.x.io"], [], [],
          none, ⟨256⟩, true, none, ""⟩] },
        ⟨"app1-7", "app1", "registry-image", "nginx", 80, ["A.x.io", "a.x.io"], [], [],
          none, ⟨256⟩, true, none, ""⟩) := rfl
  exact ⟨⟨_, _, h, rfl⟩, by decide, by decide⟩

/-- C2 (amended): across *distinct* services, hostnames stay unique under
case-insensitive comparison through any sequence of successful
`POST /services` requests, and every conflict the duplicate scan reports is
an HTTP 409; duplicates inside a single request's own hostname list are not
rejected. -/
theorem post_services_cross_hostname_unique :
    (∀ (steps : List AddStep) (st st' : State),
      crossHostnameUnique st.services →
      addSequence st steps = some st' →
      crossHostnameUnique st'.services) ∧
    ∀ (svc : Service) (l : List Service) (err : Int × String),
      collisionCheck svc l = some err → err.1 = 409 := by
  constructor
  · intro steps
    induction steps with
    | nil =>
      intro st st' hinv h
      cases h
      exact hinv
    | cons step rest ih =>
      intro st st' hinv h
      unfold addSequence at h
      split at h
      · rename_i st1 r heq
        obtain ⟨hst, -, -, hcol, -⟩ := addService_ok_shape heq
        exact ih _ _ (hst ▸ crossHostnameUnique_append hinv hcol) h
      · exact absurd h (by simp)
  · exact fun svc l err h => collisionCheck_code h

/-- Witness for C2: a two-request sequence whose second request collides
only in case with the first is the kind of run the theorem covers; here a
concrete singleton run from the fresh state preserves the invariant. -/
theorem post_services_cross_hostname_unique_witness :
    crossHostnameUnique (newState 0).services ∧
    ∃ st', addSequence (newState 0) [⟨idleDockerEnv, idleCfEnv, plainPayload, 7⟩] = some st' ∧
      crossHostnameUnique st'.services := by
  have hinv : crossHostnameUnique (newState 0).services := List.Pairwise.nil
  have hrun : addSequence (newState 0) [⟨idleDockerEnv, idleCfEnv, plainPayload, 7⟩] =
      some { newState 0 with services := [
        ⟨"web-7", "web", "registry-image", "nginx", 80, ["web.x.io"], [], [], none,
          ⟨256⟩, true, none, ""⟩] } := by decide
  exact ⟨hinv, _, hrun,
    post_services_cross_hostname_unique.1 _ _ _ hinv hrun⟩

/-- C8 counterexample: `handleAddService` accepts a negative
`memory_limit_mb` — the zero-check default leaves `-5` untouched and nothing
validates it — so a successful write stores a service violating
`memory_limit_mb ≥ 0`. -/
theorem add_service_accepts_negative_memory :
    (∃ st' r, addService idleDockerEnv idleCfEnv (newState 0) negMemPayload 7 =
        .ok (st', r) ∧
      st'.services.map (·.resources.memoryLimitMB) = [-5]) ∧
    ¬((-5 : Int) ≥ 0) := by
  have h : addService idleDockerEnv idleCfEnv (newState 0) negMemPayload 7 =
      .ok ({ newState 0 with services := [
        ⟨"app2-7", "app2", "registry-image", "redis", 80, [], [], [], none, ⟨-5⟩,
          true, none, ""⟩] },
        ⟨"app2-7", "app2", "registry-image", "redis", 80, [], [], [], none, ⟨-5⟩,
          true, none, ""⟩) := rfl
  exact ⟨⟨_, _, h, rfl⟩, by decide⟩

/-- C8 (amended): the port half of the invariant does hold — every service
stored by a sequence of successful `POST /services` requests has
`internal_port ∈ [1, 65535]`, because `validate.Port` runs on the final
port before persistence.  (`memory_limit_mb` has no such check, and the
store's own `Validate` checks only the compose project name.) -/
theorem add_service_port_invariant :
    ∀ (steps : List AddStep) (st st' : State),
      portsValid st.services →
      addSequence st steps = some st' →
      portsValid st'.services := by
  intro steps
  induction steps with
  | nil =>
    intro st st' hp h
    cases h
    exact hp
  | cons step rest ih =>
    intro st st' hp h
    unfold addSequence at h
    split at h
    · rename_i st1 r heq
      obtain ⟨hst, -, hport, -, -⟩ := addService_ok_shape heq
      refine ih _ _ ?_ h
      intro svc hsvc
      rw [hst] at hsvc
      simp only [List.mem_append, List.mem_singleton] at hsvc
      rcases hsvc with hsvc | rfl
      · exact hp svc hsvc
      · exact hport
    · exact absurd h (by simp)

/-- Witness for C8's amended theorem: a concrete one-request run from the
fresh state whose stored service has a valid port. -/
theorem add_service_port_invariant_witness :
    portsValid (newState 0).services ∧
    ∃ st', addSequence (newState 0) [⟨idleDockerEnv, idleCfEnv, plainPayload, 7⟩] = some st' ∧
      portsValid st'.services := by
  have hp : portsValid (newState 0).services := fun svc hsvc => by simp [newState] at hsvc
  have hrun : addSequence (newState 0) [⟨idleDockerEnv, idleCfEnv, plainPayload, 7⟩] =
      some { newState 0 with services := [
        ⟨"web-7", "web", "registry-image", "nginx", 80, ["web.x.io"], [], [], none,
          ⟨256⟩, true, none, ""⟩] } := by decide
  exact ⟨hp, _, hrun, add_service_port_invariant _ _ _ hp hrun⟩

/-- C1: the claimed round-trip fails for `SQLiteStore` — its schema has no
`tokens` table and no columns for `cloudflare_api_token` or the remote
settings, so `Load (Save S)` silently drops all three, while the
`InMemoryStore` and `FileStore` round-trips do preserve them for the same
state. -/
theorem sqlite_roundtrip_drops_logical_content :
    sqliteSave 5 tokenRemoteState = .ok tokenRemoteDb ∧
    (sqliteLoad 6 tokenRemoteDb).tokens = [] ∧
    (sqliteLoad 6 tokenRemoteDb).settings.cloudflareAPIToken = "" ∧
    (sqliteLoad 6 tokenRemoteDb).settings.remote.enabled = false ∧
    tokenRemoteState.tokens.length = 1 ∧
    tokenRemoteState.settings.cloudflareAPIToken = "cf-token" ∧
    tokenRemoteState.settings.remote.enabled = true ∧
    (inMemoryLoad (inMemorySave 5 tokenRemoteState)).tokens = tokenRemoteState.tokens ∧
    (inMemoryLoad (inMemorySave 5 tokenRemoteState)).settings =
      tokenRemoteState.settings ∧
    fileSave 5 tokenRemoteState = .ok tokenRemoteFileDoc ∧
    (fileLoad 6 (some tokenRemoteFileDoc)).tokens = tokenRemoteState.tokens ∧
    (fileLoad 6 (some tokenRemoteFileDoc)).settings = tokenRemoteState.settings := by
  exact ⟨rfl, rfl, rfl, rfl, rfl, rfl, rfl, rfl, rfl, rfl, rfl, rfl⟩

/-- C6 counterexample: a deploy that targets only `app1` through the
`services` list stamps `last_deploy` on *every* service — the stamping loop
consults only the scalar `service` field, which is empty here. -/
theorem deploy_stamps_untargeted_service :
    deployTargets servicesListReq = ["app1"] ∧
    servicesListReq.service = "" ∧ servicesListReq.services = ["app1"] ∧
    svcApp2.name = "app2" ∧
    (handleDeploy allOkDeployEnv servicesListReq twoSvcState 9).savedState =
      some { twoSvcState with services :=
        [{ svcApp1 with lastDeploy := some 9 }, { svcApp2 with lastDeploy := some 9 }] } := by
  decide

/-- C6 (amended): after a fully successful deploy, `last_deploy` is set on
exactly the services whose name matches the scalar `service` field
case-insensitively — on every service when that field is empty, including
when the targets came from the `services` list — and the stamped state is
saved with a 200 response. -/
theorem deploy_stamping_rule (env : DeployEnv) (req : DeployRequest) (st : State)
    (now : Nat)
    (hgen : env.generateErr = none) (hpull : env.pullErr = none)
    (hbs : env.backupStateErr = none) (hbc : env.backupConfigErr = none)
    (hup : env.upErr = none) (hwait : env.waitErr = none)
    (hprom : env.promoteErr = none) (hsave : env.saveErr = none) :
    (handleDeploy env req st now).status = 200 ∧
    (handleDeploy env req st now).savedState = some
      { st with services := (st.services.map (fun svc =>
          if req.service = "" ∨ eqFold svc.name req.service then
            { svc with lastDeploy := some now }
          else svc)) } := by
  simp [handleDeploy, handleDeploy.handleDeployAfterPull, hgen, hpull, hbs, hbc, hup,
    hwait, hprom, hsave, stampLastDeploy]

/-- Witness for C6's amended theorem at a concrete all-success deploy. -/
theorem deploy_stamping_rule_witness :
    (handleDeploy allOkDeployEnv allReq twoSvcState 9).status = 200 ∧
    (handleDeploy allOkDeployEnv allReq twoSvcState 9).savedState =
      some { twoSvcState with services := (twoSvcState.services.map (fun svc =>
        if allReq.service = "" ∨ eqFold svc.name allReq.service then
          { svc with lastDeploy := some 9 }
        else svc)) } :=
  deploy_stamping_rule allOkDeployEnv allReq twoSvcState 9 rfl rfl rfl rfl rfl rfl rfl rfl

/-- C5: when the health wait fails, the 500 response preserves the health
failure message, and when the restore also fails the body is the compound
message containing both error strings verbatim. -/
theorem deploy_health_failure_preserves_errors (env : DeployEnv) (req : DeployRequest)
    (st : State) (now : Nat) (e : String)
    (hgen : env.generateErr = none) (hpull : env.pullErr = none)
    (hbs : env.backupStateErr = none) (hbc : env.backupConfigErr = none)
    (hup : env.upErr = none) (hwait : env.waitErr = some e) :
    (handleDeploy env req st now).status = 500 ∧
    (env.rollbackErr = none →
      (handleDeploy env req st now).body = "health check failed, rolled back: " ++ e) ∧
    ∀ r, env.rollbackErr = some r →
      (handleDeploy env req st now).body =
        "health check failed: " ++ e ++ "; rollback also failed: " ++ r ∧
      (∃ pre post, (handleDeploy env req st now).body = pre ++ e ++ post) ∧
      (∃ pre post, (handleDeploy env req st now).body = pre ++ r ++ post) := by
  refine ⟨?_, ?_, ?_⟩
  · rcases hr : env.rollbackErr with _ | r <;>
      simp [handleDeploy, handleDeploy.handleDeployAfterPull, hgen, hpull, hbs, hbc,
        hup, hwait, hr]
  · intro hr
    simp [handleDeploy, handleDeploy.handleDeployAfterPull, hgen, hpull, hbs, hbc,
      hup, hwait, hr]
  · intro r hr
    have hbody : (handleDeploy env req st now).body =
        "health check failed: " ++ e ++ "; rollback also failed: " ++ r := by
      simp [handleDeploy, handleDeploy.handleDeployAfterPull, hgen, hpull, hbs, hbc,
        hup, hwait, hr]
    refine ⟨hbody, ⟨"health check failed: ", "; rollback also failed: " ++ r, ?_⟩,
      ⟨"health check failed: " ++ e ++ "; rollback also failed: ", "", ?_⟩⟩
    · rw [hbody]
      simp [String.append_assoc]
    · rw [hbody]
      simp [String.append_assoc]

/-- Witness for C5 at a concrete failing deploy. -/
theorem deploy_health_failure_preserves_errors_witness :
    (handleDeploy healthFailEnv allReq (newState 0) 9).body =
      "health check failed: containers unhealthy; rollback also failed: restore failed" := by
  have h := (deploy_health_failure_preserves_errors healthFailEnv allReq (newState 0) 9
    "containers unhealthy" rfl rfl rfl rfl rfl rfl).2.2 "restore failed" rfl
  rw [h.1]
  decide

/-- C9: the deploy path takes no lock, so an interleaved execution of two
`POST /deploy` requests — B generates, backs up, comes up and passes its
health wait while A is still in flight — lets *both* promotions rename
their staging directories onto `current/`; nothing serializes or rejects
the overlapping deploy. -/
theorem deploy_promotions_unserialized :
    (runSchedule twoDeploysInit interleavedSchedule).a.promoted = true ∧
    (runSchedule twoDeploysInit interleavedSchedule).b.promoted = true ∧
    (runSchedule twoDeploysInit interleavedSchedule).a.failed = false ∧
    (runSchedule twoDeploysInit interleavedSchedule).b.failed = false ∧
    (runSchedule twoDeploysInit interleavedSchedule).fs.current = some "stgB" ∧
    (runSchedule twoDeploysInit interleavedSchedule).fs.backups =
      [("backup-20260101-000001", "stgA"), ("backup-20260101-000000", "bundle0")] := by
  decide

theorem allHealthyCheck_spec {targets : List String} {cs : List ContainerStatus}
    (h : allHealthyCheck targets cs = true) :
    ∀ c ∈ cs, containerChecked targets c = true → containerHealthy c = true := by
  intro c hcmem hchk
  have hc := List.all_eq_true.mp h c hcmem
  simpa [hchk] using hc

/-- C4 counterexample: with the filter `["ghost"]` and a poll reporting only
a healthy `web` container, `WaitHealthy` returns success even though no
status was reported for `ghost` at all — absent named services are never
awaited. -/
theorem waitHealthy_ignores_missing_service :
    waitHealthy ["ghost"] [webOnlyPoll] = .success ∧
    webOnlyPoll.poll = some [⟨"proj-web-1", "web", "running", ""⟩] ∧
    (∀ c ∈ [(⟨"proj-web-1", "web", "running", ""⟩ : ContainerStatus)],
      lowerAscii c.service ≠ lowerAscii "ghost") := by
  refine ⟨by decide, rfl, by decide⟩

/-- C4 (amended): `WaitHealthy` succeeds exactly when some poll before the
deadline returns a non-empty container list in which every *reported*
container selected by the filter (every container when the filter is empty)
has a state starting with `running` and a health that is empty or
`healthy`; it times out when the deadline passes with every poll failing
that check and no cancellation; a cancellation observed while waiting is
propagated. -/
theorem waitHealthy_outcome_spec (targets : List String) (ticks : List PollTick) :
    (waitHealthy targets ticks = .success →
      ∃ t ∈ ticks, ∃ cs, t.poll = some cs ∧ cs ≠ [] ∧
        allHealthyCheck targets cs = true ∧
        ∀ c ∈ cs, containerChecked targets c = true → containerHealthy c = true) ∧
    (waitHealthy targets ticks = .timeoutErr ↔
      ∀ t ∈ ticks, tickPasses targets t = false ∧ t.ctxCancelled = false) ∧
    (waitHealthy targets ticks = .cancelled → ∃ t ∈ ticks, t.ctxCancelled = true) := by
  induction ticks with
  | nil => simp [waitHealthy]
  | cons t rest ih =>
    by_cases hp : tickPasses targets t
    · refine ⟨fun _ => ?_, ?_, ?_⟩
      · rcases hpoll : t.poll with _ | cs
        · rw [tickPasses, hpoll] at hp
          simp at hp
        · rw [tickPasses, hpoll] at hp
          simp only [Bool.and_eq_true, Bool.not_eq_true'] at hp
          obtain ⟨hp1, hp2⟩ := hp
          refine ⟨t, List.mem_cons_self .., cs, hpoll, ?_, hp2, allHealthyCheck_spec hp2⟩
          intro hnil
          rw [hnil] at hp1
          simp at hp1
      · constructor
        · intro h
          rw [waitHealthy, if_pos hp] at h
          cases h
        · intro hall
          exact absurd (hall t (List.mem_cons_self ..)).1 (by simp [hp])
      · intro h
        rw [waitHealthy, if_pos hp] at h
        cases h
    · by_cases hc : t.ctxCancelled
      · refine ⟨fun h => ?_, ⟨fun h => ?_, fun hall => ?_⟩, fun _ => ?_⟩
        · rw [waitHealthy, if_neg (by simp [hp]), if_pos hc] at h
          cases h
        · rw [waitHealthy, if_neg (by simp [hp]), if_pos hc] at h
          cases h
        · exact absurd (hall t (List.mem_cons_self ..)).2 (by simp [hc])
        · exact ⟨t, List.mem_cons_self .., hc⟩
      · have hw : waitHealthy targets (t :: rest) = waitHealthy targets rest := by
          rw [waitHealthy, if_neg (by simp [hp]), if_neg (by simp [hc])]
        refine ⟨fun h => ?_, ?_, fun h => ?_⟩
        · obtain ⟨t', ht', rest'⟩ := ih.1 (hw ▸ h)
          exact ⟨t', List.mem_cons_of_mem _ ht', rest'⟩
        · rw [hw]
          constructor
          · intro h t' ht'
            rcases List.mem_cons.mp ht' with rfl | ht'
            · exact ⟨by simpa using hp, by simpa using hc⟩
            · exact (ih.2.1.mp h) t' ht'
          · intro hall
            exact ih.2.1.mpr fun t' ht' => hall t' (List.mem_cons_of_mem _ ht')
        · obtain ⟨t', ht', hcc⟩ := ih.2.2 (hw ▸ h)
          exact ⟨t', List.mem_cons_of_mem _ ht', hcc⟩

/-- Witness for C4's amended theorem: the success implication applied at the
concrete single-poll run. -/
theorem waitHealthy_outcome_spec_witness :
    ∃ t ∈ [webOnlyPoll], ∃ cs, t.poll = some cs ∧ cs ≠ [] ∧
      allHealthyCheck ["ghost"] cs = true ∧
      ∀ c ∈ cs, containerChecked ["ghost"] c = true → containerHealthy c = true :=
  (waitHealthy_outcome_spec ["ghost"] [webOnlyPoll]).1 (by decide)

theorem charListLe_total (a b : List Char) :
    charListLe a b = true ∨ charListLe b a = true := by
  induction a generalizing b with
  | nil => exact .inl rfl
  | cons x as ih =>
    cases b with
    | nil => exact .inr rfl
    | cons y bs =>
      by_cases hxy : x.toNat < y.toNat
      · left
        simp [charListLe, hxy]
      · by_cases hyx : y.toNat < x.toNat
        · right
          simp [charListLe, hyx]
        · rcases ih bs with h | h
          · left
            simpa [charListLe, hxy, hyx] using h
          · right
            simpa [charListLe, hxy, hyx] using h

theorem charListLe_trans {a b c : List Char}
    (hab : charListLe a b = true) (hbc : charListLe b c = true) :
    charListLe a c = true := by
  induction a generalizing b c with
  | nil => rfl
  | cons x as ih =>
    cases b with
    | nil => simp [charListLe] at hab
    | cons y bs =>
      cases c with
      | nil => simp [charListLe] at hbc
      | cons z cs =>
        rw [charListLe] at hab hbc ⊢
        split_ifs at hab hbc ⊢ with h1 h2 h3 h4 h5 h6 <;> try omega
        all_goals first
          | rfl
          | (exact hab)
          | (exact hbc)
          | (exact ih hab hbc)

theorem strLeB_total (a b : String) : strLeB a b = true ∨ strLeB b a = true :=
  charListLe_total a.data b.data

theorem strLeB_trans {a b c : String} (h1 : strLeB a b = true) (h2 : strLeB b c = true) :
    strLeB a c = true :=
  charListLe_trans h1 h2

theorem insertStr_perm (x : String) (l : List String) :
    List.Perm (insertStr x l) (x :: l) := by
  induction l with
  | nil => exact .refl _
  | cons y ys ih =>
    rw [insertStr]
    split
    · exact .refl _
    · exact (ih.cons y).trans (List.Perm.swap x y ys)

theorem sortStrings_perm (l : List String) : List.Perm (sortStrings l) l := by
  induction l with
  | nil => exact .refl _
  | cons x xs ih => exact (insertStr_perm x _).trans (ih.cons x)

theorem insertStr_sorted {x : String} {l : List String}
    (h : l.Pairwise fun a b => strLeB a b = true) :
    (insertStr x l).Pairwise fun a b => strLeB a b = true := by
  induction l with
  | nil => simp [insertStr]
  | cons y ys ih =>
    rw [insertStr]
    rw [List.pairwise_cons] at h
    split
    · rename_i hxy
      rw [List.pairwise_cons]
      refine ⟨?_, List.pairwise_cons.mpr h⟩
      intro b hb
      rcases List.mem_cons.mp hb with rfl | hb'
      · exact hxy
      · exact strLeB_trans hxy (h.1 b hb')
    · rename_i hxy
      rw [List.pairwise_cons]
      refine ⟨?_, ih h.2⟩
      intro b hb
      rcases List.mem_cons.mp ((insertStr_perm x ys).mem_iff.mp hb) with rfl | hb'
      · rcases strLeB_total b y with hby | hyb
        · exact absurd hby (by simpa using hxy)
        · exact hyb
      · exact h.1 b hb'

theorem sortStrings_sorted (l : List String) :
    (sortStrings l).Pairwise fun a b => strLeB a b = true := by
  induction l with
  | nil => exact List.Pairwise.nil
  | cons x xs ih => exact insertStr_sorted ih

theorem sortStrings_nodup {l : List String} (h : l.Nodup) : (sortStrings l).Nodup :=
  (sortStrings_perm l).nodup_iff.mpr h

theorem uniqueAux_spec (seen l : List String) :
    (uniqueAux seen l).Nodup ∧ ∀ x ∈ uniqueAux seen l, x ∉ seen := by
  induction l generalizing seen with
  | nil => simp [uniqueAux]
  | cons h t ih =>
    rw [uniqueAux]
    split
    · exact ih seen
    · split
      · exact ih seen
      · rename_i hne hnotin
        obtain ⟨hnd, hni⟩ := ih (h :: seen)
        refine ⟨List.nodup_cons.mpr ⟨fun hmem => hni h hmem (List.mem_cons_self ..), hnd⟩, ?_⟩
        intro x hx
        rcases List.mem_cons.mp hx with rfl | hx'
        · exact hnotin
        · exact fun hxs => hni x hx' (List.mem_cons_of_mem _ hxs)

theorem unique_nodup (l : List String) : (unique l).Nodup :=
  (uniqueAux_spec [] l).1

/-- C3 counterexample: a state whose service carries the hostnames
`A.x.io` and `a.x.io` produces *two* ingress rules for them — `unique` and
`sort.Strings` compare exactly, so case-insensitive duplicates are not
collapsed (and the order is byte-wise, not case-insensitive). -/
theorem ingress_case_dup_not_collapsed :
    ingressHostnames dupHostState = ["A.x.io", "a.x.io", "whoami.x.io"] ∧
    eqFold "A.x.io" "a.x.io" = true ∧ "A.x.io" ≠ "a.x.io" := by
  exact ⟨by decide, by decide, by decide⟩

/-- C3 (amended): for every State the emitted ingress hostname list is
sorted ascending under Go's byte-wise string order with *exact* duplicates
collapsed (case-insensitive duplicates survive as distinct rules), and the
rule list is the hostname rules followed by the final
`service: http_status:404` rule. -/
theorem ingress_sorted_unique_terminated (uiPort webhookPort : String) (s : State) :
    ((ingressHostnames s).Pairwise fun a b => strLeB a b = true) ∧
    (ingressHostnames s).Nodup ∧
    ((ingressRules uiPort webhookPort s).map (·.hostname) =
      (ingressHostnames s).map some ++ [none]) ∧
    (ingressRules uiPort webhookPort s).getLast? = some ⟨none, "http_status:404"⟩ := by
  refine ⟨sortStrings_sorted _, ?_, ?_, ?_⟩
  · simp only [ingressHostnames]
    split
    · exact sortStrings_nodup (by simp)
    · exact sortStrings_nodup (unique_nodup _)
  · simp [ingressRules, Function.comp]
  · simp [ingressRules, List.getLast?_concat]

theorem length_filter_not_mem_removedLow (l : List String) (mk : Nat)
    (p : String → Bool) (hp : ∀ x, p x = true → x ∉ removedLow mk l) :
    (l.filter p).length ≤ mk := by
  have hlen : (l.filter p).length = ((sortStrings l).filter p).length :=
    (((sortStrings_perm l).symm).filter p).length_eq
  by_cases hover : (sortStrings l).length > mk
  · have hrl : removedLow mk l = (sortStrings l).take ((sortStrings l).length - mk) := by
      rw [removedLow, if_pos hover]
    have hsplit := List.take_append_drop ((sortStrings l).length - mk) (sortStrings l)
    have hnil : ((sortStrings l).take ((sortStrings l).length - mk)).filter p = [] := by
      refine List.filter_eq_nil_iff.mpr fun x hx => ?_
      intro hpx
      exact hp x hpx (hrl ▸ hx)
    calc (l.filter p).length
        = ((sortStrings l).filter p).length := hlen
      _ = (((sortStrings l).take ((sortStrings l).length - mk) ++
            (sortStrings l).drop ((sortStrings l).length - mk)).filter p).length := by
          rw [hsplit]
      _ ≤ ((sortStrings l).drop ((sortStrings l).length - mk)).length := by
          rw [List.filter_append, hnil, List.nil_append]
          exact List.length_filter_le _ _
      _ ≤ mk := by
          rw [List.length_drop]
          omega
  · calc (l.filter p).length
        = ((sortStrings l).filter p).length := hlen
      _ ≤ (sortStrings l).length := List.length_filter_le _ _
      _ ≤ mk := by omega

theorem removedLow_le_kept (l : List String) (mk : Nat) :
    ∀ r ∈ removedLow mk l, r ∈ l ∧
      ∀ k, k ∈ l → k ∉ removedLow mk l → strLeB r k = true := by
  intro r hr
  by_cases hover : (sortStrings l).length > mk
  · rw [removedLow, if_pos hover] at hr
    have hsplit := List.take_append_drop ((sortStrings l).length - mk) (sortStrings l)
    have hcross := (List.pairwise_append.mp (hsplit ▸ sortStrings_sorted l)).2.2
    refine ⟨(sortStrings_perm l).mem_iff.mp (List.mem_of_mem_take hr), ?_⟩
    intro k hk hknot
    rw [removedLow, if_pos hover] at hknot
    have hks : k ∈ (sortStrings l).drop ((sortStrings l).length - mk) := by
      have := (sortStrings_perm l).mem_iff.mpr hk
      rw [← hsplit] at this
      rcases List.mem_append.mp this with h | h
      · exact absurd h hknot
      · exact h
    exact hcross r hr k hks
  · rw [removedLow, if_neg hover] at hr
    cases hr

/-- Filtering a listing by a name predicate commutes with selecting a kind
and projecting names. -/
theorem names_of_filter (q : DirEntry → Bool) (pred : String → Bool)
    (entries : List DirEntry) :
    ((entries.filter fun e => pred e.name).filter q).map (·.name) =
      ((entries.filter q).map (·.name)).filter pred := by
  induction entries with
  | nil => rfl
  | cons e t ih =>
    have ih' : (t.filter fun a => q a && pred a.name).map (·.name) =
        ((t.filter q).map (·.name)).filter pred := by
      rw [← List.filter_filter]
      exact ih
    by_cases hq : q e = true <;> by_cases hpred : pred e.name = true <;>
      simp [List.filter_cons, hq, hpred, ih, ih', List.filter_filter]

/-- C7 counterexample: eleven plain *files* named `backup-*` all survive
`pruneBackups(10)` — the prune only counts and deletes `backup-*`
*directories*, so more than `max_backups` entries named `backup-*` remain. -/
theorem prune_keeps_nondir_backup_entries :
    pruneBackups 10 elevenBackupFiles = elevenBackupFiles ∧
    (elevenBackupFiles.filter fun e => strStartsWith e.name "backup-").length = 11 := by
  exact ⟨by decide, by decide⟩

/-- C7 (amended): after `pruneBackups(maxKeep)`, at most
`max(maxKeep, 10 when maxKeep ≤ 0)` `backup-*` *directories* and at most
that many `state-*.json` entries remain, and each kind's deleted names are
lexicographically no greater than every kind-mate that survives (the prune
deletes exactly the leading slice of the ascending-sorted names). -/
theorem prune_bounds_and_removes_oldest (maxKeep : Int) (entries : List DirEntry) :
    (backupDirNames (pruneBackups maxKeep entries)).length ≤ effectiveMaxKeep maxKeep ∧
    (stateFileNames (pruneBackups maxKeep entries)).length ≤ effectiveMaxKeep maxKeep ∧
    (∀ r ∈ (pruneRemovedNames maxKeep entries).1, r ∈ backupDirNames entries ∧
      ∀ k ∈ backupDirNames (pruneBackups maxKeep entries), strLeB r k = true) ∧
    (∀ r ∈ (pruneRemovedNames maxKeep entries).2, r ∈ stateFileNames entries ∧
      ∀ k ∈ stateFileNames (pruneBackups maxKeep entries), strLeB r k = true) := by
  have hcommB : backupDirNames (pruneBackups maxKeep entries) =
      (backupDirNames entries).filter (fun n =>
        decide ¬(n ∈ (pruneRemovedNames maxKeep entries).1 ∨
          n ∈ (pruneRemovedNames maxKeep entries).2)) := by
    unfold backupDirNames pruneBackups
    exact names_of_filter (fun e => strStartsWith e.name "backup-" && e.isDir)
      (fun n => decide ¬(n ∈ (pruneRemovedNames maxKeep entries).1 ∨
        n ∈ (pruneRemovedNames maxKeep entries).2)) entries
  have hcommS : stateFileNames (pruneBackups maxKeep entries) =
      (stateFileNames entries).filter (fun n =>
        decide ¬(n ∈ (pruneRemovedNames maxKeep entries).1 ∨
          n ∈ (pruneRemovedNames maxKeep entries).2)) := by
    unfold stateFileNames pruneBackups
    exact names_of_filter
      (fun e => strStartsWith e.name "state-" && strEndsWith e.name ".json")
      (fun n => decide ¬(n ∈ (pruneRemovedNames maxKeep entries).1 ∨
        n ∈ (pruneRemovedNames maxKeep entries).2)) entries
  refine ⟨?_, ?_, ?_, ?_⟩
  · rw [hcommB]
    refine length_filter_not_mem_removedLow _ _ _ fun x hx => ?_
    rw [decide_eq_true_eq, not_or] at hx
    exact hx.1
  · rw [hcommS]
    refine length_filter_not_mem_removedLow _ _ _ fun x hx => ?_
    rw [decide_eq_true_eq, not_or] at hx
    exact hx.2
  · intro r hr
    obtain ⟨hmem, hle⟩ := removedLow_le_kept (backupDirNames entries)
      (effectiveMaxKeep maxKeep) r hr
    refine ⟨hmem, ?_⟩
    intro k hk
    rw [hcommB] at hk
    rw [List.mem_filter, decide_eq_true_eq, not_or] at hk
    exact hle k hk.1 hk.2.1
  · intro r hr
    obtain ⟨hmem, hle⟩ := removedLow_le_kept (stateFileNames entries)
      (effectiveMaxKeep maxKeep) r hr
    refine ⟨hmem, ?_⟩
    intro k hk
    rw [hcommS] at hk
    rw [List.mem_filter, decide_eq_true_eq, not_or] at hk
    exact hle k hk.1 hk.2.2

end Tinyserve
